import Mathlib

/-!
Verification development for the tsdproxy proxy-lifecycle engine.

The definitions below are a shallow embedding of the Go sources:
  * `internal/proxymanager/proxymanager.go` (proxy manager, event dispatch)
  * the proxy aggregate (`Proxy`, `setStatus`, `Close`, `ProviderUserMiddleware`)
  * `internal/proxymanager/port.go` (port workers: reverse proxy and redirect)
  * `internal/targetproviders/list/list.go` (list-file target provider)
  * the docker target provider client and `internal/targetproviders/docker/container.go`

Go maps are embedded as association lists (`List (String × α)`); Go map
assignment, deletion and lookup become `mapSet`, `mapErase` and `mapLookup`.
Iteration order of a Go map is unspecified, so list order carries no meaning
beyond what the embedded functions use.  External effects (logging, sockets,
wall-clock sleeps) are dropped; the status bus is embedded as the list of
events a never-full subscriber receives, appended in publication order.
-/

namespace Tsdproxy

/-- Association-list lookup, embedding a Go map read `m[k]`. -/
def mapLookup {α : Type} : List (String × α) → String → Option α
  | [], _ => none
  | p :: l, k => if p.1 = k then some p.2 else mapLookup l k

/-- Association-list deletion, embedding Go `delete(m, k)`. -/
def mapErase {α : Type} : List (String × α) → String → List (String × α)
  | [], _ => []
  | p :: l, k => if p.1 = k then mapErase l k else p :: mapErase l k

/-- Association-list update, embedding a Go map assignment `m[k] = v`
(overwrite if the key is present, insert otherwise; the order of an
association list carries no meaning, matching Go map iteration). -/
def mapSet {α : Type} (l : List (String × α)) (k : String) (v : α) : List (String × α) :=
  mapErase l k ++ [(k, v)]

/-- Keys of an association list. -/
def mapKeys {α : Type} (l : List (String × α)) : List String :=
  l.map (fun p => p.1)

theorem mapLookup_set_self {α : Type} (l : List (String × α)) (k : String) (v : α) :
    mapLookup (mapSet l k v) k = some v := by
  induction l with
  | nil => simp [mapLookup, mapSet, mapErase]
  | cons hd tl ih =>
    by_cases h : hd.1 = k
    · simpa [mapLookup, mapSet, mapErase, h] using ih
    · simpa [mapLookup, mapSet, mapErase, h] using ih

theorem mapLookup_set_ne {α : Type} (l : List (String × α)) (k k' : String) (v : α)
    (h : k' ≠ k) : mapLookup (mapSet l k v) k' = mapLookup l k' := by
  induction l with
  | nil => simp [mapLookup, mapSet, mapErase, Ne.symm h]
  | cons hd tl ih =>
    by_cases hk : hd.1 = k
    · have hk2 : ¬ hd.1 = k' := by rw [hk]; exact Ne.symm h
      simpa [mapLookup, mapSet, mapErase, hk, hk2, h, Ne.symm h] using ih
    · by_cases hk' : hd.1 = k'
      · simp [mapLookup, mapSet, mapErase, hk, hk', h, Ne.symm h]
      · simpa [mapLookup, mapSet, mapErase, hk, hk', h, Ne.symm h] using ih

theorem mem_mapKeys_erase {α : Type} (l : List (String × α)) (k x : String)
    (h : x ∈ mapKeys (mapErase l k)) : x ∈ mapKeys l := by
  induction l with
  | nil => simp [mapKeys, mapErase] at h
  | cons hd tl ih =>
    by_cases hk : hd.1 = k
    · simp only [mapKeys, mapErase, hk, if_pos rfl] at h
      exact List.mem_cons_of_mem _ (ih h)
    · simp only [mapKeys, mapErase, if_neg hk, List.map_cons, List.mem_cons] at h ⊢
      rcases h with h | h
      · exact Or.inl h
      · exact Or.inr (ih h)

theorem notMem_mapKeys_erase {α : Type} (l : List (String × α)) (k : String) :
    k ∉ mapKeys (mapErase l k) := by
  induction l with
  | nil => simp [mapKeys, mapErase]
  | cons hd tl ih =>
    by_cases hk : hd.1 = k
    · simpa [mapKeys, mapErase, hk] using ih
    · simp only [mapKeys, mapErase, if_neg hk, List.map_cons, List.mem_cons]
      rintro (h | h)
      · exact hk h.symm
      · exact ih h

theorem mapKeys_nodup_erase {α : Type} (l : List (String × α)) (k : String)
    (h : (mapKeys l).Nodup) : (mapKeys (mapErase l k)).Nodup := by
  induction l with
  | nil => simp [mapKeys, mapErase]
  | cons hd tl ih =>
    simp only [mapKeys, List.map_cons, List.nodup_cons] at h
    by_cases hk : hd.1 = k
    · simpa [mapKeys, mapErase, hk] using ih h.2
    · simp only [mapKeys, mapErase, if_neg hk, List.map_cons, List.nodup_cons]
      exact ⟨fun hmem => h.1 (mem_mapKeys_erase tl k hd.1 hmem), ih h.2⟩

theorem mapKeys_nodup_set {α : Type} (l : List (String × α)) (k : String) (v : α)
    (h : (mapKeys l).Nodup) : (mapKeys (mapSet l k v)).Nodup := by
  have hkeys : mapKeys (mapSet l k v) = mapKeys (mapErase l k) ++ [k] := by
    simp [mapSet, mapKeys]
  rw [hkeys, List.nodup_append]
  refine ⟨mapKeys_nodup_erase l k h, by simp, ?_⟩
  intro x hx hx'
  simp only [List.mem_singleton] at hx'
  exact absurd (hx' ▸ hx) (notMem_mapKeys_erase l k)

/-! ## Data model (`internal/model`, as used by the embedded sources)

The `model` package itself is not among the source files; the record fields
below are exactly those the embedded code reads or writes. -/

/-- Observable proxy status (`model.ProxyStatus`); the set of values is listed
in the spec's status-event-bus interface. -/
inductive ProxyStatus where
  | initializing
  | starting
  | authenticating
  | running
  | stopping
  | stopped
  | error
deriving DecidableEq, Repr

/-- A status-bus event (`model.ProxyEvent`): proxy hostname plus new status. -/
structure ProxyEvent where
  id : String
  status : ProxyStatus
deriving DecidableEq, Repr

/-- Result of a whois lookup (`model.Whois`), as read by the reverse proxy. -/
structure Whois where
  username : String
  displayName : String
  id : String
  profilePicURL : String
deriving DecidableEq, Repr

/-- The zero value `model.Whois` that `tailscale.Proxy.Whois` returns on a
failed lookup. -/
def Whois.empty : Whois := ⟨"", "", "", ""⟩

/-- A parsed URL as the embedded code uses it: scheme, authority (`Host`,
which in Go includes any port), and path.  `url.Parse` itself is external;
where the code parses externally supplied strings the parser is a parameter. -/
structure GoURL where
  scheme : String
  host : String
  path : String
deriving DecidableEq, Repr

/-- Go `(*url.URL).String()` for the URLs the embedded code builds. -/
def GoURL.toString (u : GoURL) : String :=
  u.scheme ++ "://" ++ u.host ++ u.path

/-- Per-port configuration (`model.PortConfig`), with the fields the embedded
code reads.  `targets` is the ordered upstream list; `GetFirstTarget` takes
its head. -/
structure PortConfig where
  proxyPort : Nat
  proxyProtocol : String
  targets : List GoURL
  isRedirect : Bool
  tlsValidate : Bool
  funnel : Bool
deriving DecidableEq, Repr

/-- The zero value of `model.PortConfig` (Go zero struct). -/
def PortConfig.zero : PortConfig :=
  { proxyPort := 0, proxyProtocol := "", targets := [], isRedirect := false,
    tlsValidate := false, funnel := false }

/-- `PortConfig.GetFirstTarget`: the first upstream target.  In Go this
returns a possibly-nil pointer; `none` stands for nil (using it would panic). -/
def PortConfig.getFirstTarget (p : PortConfig) : Option GoURL :=
  p.targets.head?

/-- `PortConfig.AddTarget`: append one upstream target. -/
def PortConfig.addTarget (p : PortConfig) (u : GoURL) : PortConfig :=
  { p with targets := p.targets ++ [u] }

/-- The normalized proxy configuration (`model.Config`), restricted to the
fields the proxy manager and proxy read. -/
structure Config where
  targetID : String
  hostname : String
  targetProvider : String
  proxyProvider : String
  ports : List (String × PortConfig)
  proxyAccessLog : Bool
deriving DecidableEq, Repr

/-! ## Proxy aggregate (proxymanager `Proxy`)

`Proxy.setStatus` and `Proxy.Close` are from the proxy source file.  The
observable state is the cached status; publication through the `onUpdate`
callback (wired by the manager to the status bus) is returned as the list of
events published, in order.  `onUpdate` is nil until the manager sets it,
hence the `hasOnUpdate` flag. -/

structure ProxyM where
  config : Config
  status : ProxyStatus
  hasOnUpdate : Bool
deriving DecidableEq, Repr

/-- `Proxy.setStatus`: under the proxy mutex, return early when the status is
unchanged; otherwise update the cached status and (after releasing the lock)
publish one event through `onUpdate` when it is set. -/
def ProxyM.setStatus (p : ProxyM) (status : ProxyStatus) : ProxyM × List ProxyEvent :=
  if p.status = status then (p, [])
  else ({ p with status := status },
        if p.hasOnUpdate then [⟨p.config.hostname, status⟩] else [])

/-- `Proxy.Close`: transition to Stopping, cancel the context and close ports
and endpoint (no status-bus effect), then transition to Stopped. -/
def ProxyM.Close (p : ProxyM) : ProxyM × List ProxyEvent :=
  let s1 := p.setStatus ProxyStatus.stopping
  let s2 := s1.1.setStatus ProxyStatus.stopped
  (s2.1, s1.2 ++ s2.2)

/-- Sequential iteration of `Proxy.Close`, collecting every published event. -/
def ProxyM.closeN (p : ProxyM) : Nat → ProxyM × List ProxyEvent
  | 0 => (p, [])
  | n + 1 =>
    let s1 := p.Close
    let s2 := s1.1.closeN n
    (s2.1, s1.2 ++ s2.2)

/-- Sequential application of `Proxy.setStatus` to a list of requested
statuses, collecting the published trace. -/
def ProxyM.setStatusSeq (p : ProxyM) : List ProxyStatus → ProxyM × List ProxyEvent
  | [] => (p, [])
  | s :: rest =>
    let s1 := p.setStatus s
    let s2 := s1.1.setStatusSeq rest
    (s2.1, s1.2 ++ s2.2)

/-! ## Proxy manager (`internal/proxymanager/proxymanager.go`)

The manager state holds the live-proxy registry keyed by hostname, the
per-target-provider bookkeeping maps (the `proxies`/`containers` maps the
providers mutate in `AddTarget`/`DeleteProxy`), and the status bus embedded
as the published event trace.  A target event's `TargetProvider` field is a
direct interface reference in Go; here the reference is a provider name
resolved through the environment below. -/

/-- Event actions (`targetproviders.ActionType`); the proxy manager's switch
handles only the first three. -/
inductive ActionType where
  | startProxy
  | stopProxy
  | restartProxy
  | startPort
  | stopPort
  | restartPort
deriving DecidableEq, Repr

/-- A target event (`targetproviders.TargetEvent`). -/
structure TargetEvent where
  provider : String
  id : String
  action : ActionType
deriving DecidableEq, Repr

/-- Behaviour of a target provider's `AddTarget`: the materialized config for
an id, or `none` for an error.  (The providers' concrete `AddTarget`
implementations are embedded separately below; the manager only sees this
interface.) -/
structure TPBehavior where
  addTarget : String → Option Config

/-- Environment for the manager's event handlers: per-provider `AddTarget`
behaviour, plus oracles for the success of `getProxyProvider` resolution and
of `proxyProvider.NewProxy` (both external to the registry logic under
verification; each failure path returns early after logging). -/
structure Env where
  behavior : String → TPBehavior
  ppOk : Config → Bool
  newProxyOk : Config → Bool

/-- Proxy manager state: live-proxy registry (`Proxies`, keyed by hostname),
per-provider bookkeeping maps (keyed by provider name; the key set stands for
the manager's registered `TargetProviders`), and the status-bus trace. -/
structure PMState where
  proxies : List (String × ProxyM)
  tpTargets : List (String × List String)
  bus : List ProxyEvent
deriving DecidableEq, Repr

/-- `ProxyManager.getProxyByTargetID`: linear scan of the registry for a
proxy whose config carries the target id. -/
def PMState.getProxyByTargetID (s : PMState) (targetID : String) : Option ProxyM :=
  (s.proxies.find? (fun kv => kv.2.config.targetID == targetID)).map (fun kv => kv.2)

/-- `ProxyManager.removeProxy`: look up by hostname; absent hostnames are
ignored; otherwise close the proxy (its published events reach the bus
through `onUpdate`) and delete the registry entry. -/
def PMState.removeProxy (s : PMState) (hostname : String) : PMState :=
  match mapLookup s.proxies hostname with
  | none => s
  | some p =>
    let c := p.Close
    { s with proxies := mapErase s.proxies hostname, bus := s.bus ++ c.2 }

/-- `ProxyManager.newAndStartProxy`: resolve the proxy provider and construct
the proxy (each failure is logged and the handler returns), wire `onUpdate`,
register the proxy under its hostname (`addProxy`, a plain map assignment
that overwrites any previous entry), broadcast `Initializing`, then start the
proxy asynchronously (the started goroutine's effects are outside the
handler). -/
def PMState.newAndStartProxy (env : Env) (s : PMState) (pcfg : Config) : PMState :=
  if env.ppOk pcfg then
    if env.newProxyOk pcfg then
      let p : ProxyM :=
        { config := pcfg, status := ProxyStatus.initializing, hasOnUpdate := true }
      { s with proxies := mapSet s.proxies pcfg.hostname p,
               bus := s.bus ++ [⟨pcfg.hostname, ProxyStatus.initializing⟩] }
    else s
  else s

/-- `ProxyManager.eventStart`: materialize the config via the event
provider's `AddTarget` (which records the target in the provider's
bookkeeping map before returning); on error the event is dropped; otherwise
create and start the proxy. -/
def PMState.eventStart (env : Env) (s : PMState) (provider id : String) : PMState :=
  match (env.behavior provider).addTarget id with
  | none => s
  | some pcfg =>
    let bk := (mapLookup s.tpTargets provider).getD []
    let s1 := { s with
      tpTargets := mapSet s.tpTargets provider (if id ∈ bk then bk else bk ++ [id]) }
    PMState.newAndStartProxy env s1 pcfg

/-- `ProxyManager.eventStop`: find the proxy by target id (absent: log and
return); fetch the owning target provider from the manager's map (a missing
entry yields a nil interface whose method call panics, embedded as `none`);
call `DeleteProxy` (an unknown id is an error: log and return, provider
bookkeeping untouched); then `removeProxy`. -/
def PMState.eventStop (s : PMState) (id : String) : Option PMState :=
  match s.getProxyByTargetID id with
  | none => some s
  | some proxy =>
    match mapLookup s.tpTargets proxy.config.targetProvider with
    | none => none
    | some bk =>
      if id ∈ bk then
        let s1 := { s with
          tpTargets := mapSet s.tpTargets proxy.config.targetProvider
            (bk.filter (fun x => !(x == id))) }
        some (s1.removeProxy proxy.config.hostname)
      else
        some s

/-- `ProxyManager.HandleProxyEvent`: dispatch on the event action; Restart is
handled as the Stop handler followed by the Start handler; actions outside
the switch are ignored. -/
def PMState.handleProxyEvent (env : Env) (s : PMState) (ev : TargetEvent) : Option PMState :=
  match ev.action with
  | ActionType.startProxy => some (PMState.eventStart env s ev.provider ev.id)
  | ActionType.stopProxy => PMState.eventStop s ev.id
  | ActionType.restartProxy =>
    (PMState.eventStop s ev.id).map (fun s1 => PMState.eventStart env s1 ev.provider ev.id)
  | _ => some s

/-! ## List-file target provider (`internal/targetproviders/list/list.go`) -/

/-- One port entry of a list-file entry (the provider's `port` YAML struct). -/
structure ListPort where
  targets : List String
  funnel : Bool
  isRedirect : Bool
  tlsValidate : Bool
deriving DecidableEq, Repr

/-- One list-file entry (the provider's `proxyConfig` struct), restricted to
the fields the embedded code reads. -/
structure ListEntry where
  ports : List (String × ListPort)
  proxyProvider : String
deriving DecidableEq, Repr

/-- List provider client state (`list.Client`): provider name, the current
view of the file (`configProxies`), the bookkeeping map of materialized
targets (`proxies`; only its key set matters here), the configured default
proxy provider, and whether the file watcher is running. -/
structure ListClientState where
  name : String
  configProxies : List (String × ListEntry)
  proxies : List String
  defaultProxyProvider : String
  watching : Bool
deriving DecidableEq, Repr

/-- Split a character list at every occurrence of the separator. -/
def splitChar (c : Char) : List Char → List (List Char)
  | [] => [[]]
  | a :: rest =>
    let r := splitChar c rest
    if a = c then [] :: r
    else
      match r with
      | [] => [[a]]
      | g :: gs => (a :: g) :: gs

/-- Decimal value of a digit list; `none` when empty or non-numeric. -/
def digitsVal (l : List Char) : Option Nat :=
  if l = [] then none
  else l.foldl (fun acc ch =>
    match acc with
    | none => none
    | some a => if ch.isDigit then some (a * 10 + (ch.toNat - 48)) else none) (some 0)

/-- Modelled from the spec: `model.NewPortShortLabel` is not under `src/`.
Per the spec's list-file schema a port key is the short form
"<proxy_port>/<proxy_protocol>" (for example "80/http"); parsing yields a
PortConfig with that proxy port and protocol, no targets yet, and the
documented defaults (tls validation on, no funnel, not a redirect). -/
def NewPortShortLabel (k : String) : Option PortConfig :=
  match splitChar (Char.ofNat 0x2f) k.toList with
  | [pp, proto] =>
    (digitsVal pp).map (fun n =>
      { proxyPort := n, proxyProtocol := String.mk proto, targets := [],
        isRedirect := false, tlsValidate := true, funnel := false })
  | _ => none

/-- Modelled from the spec: `model.DefaultProxyAccessLog` is not under
`src/`; the flag's value is immaterial to the claims below. -/
def DefaultProxyAccessLog : Bool := false

/-- The target-validation loop body of `list.Client.getPorts`: a target URL
is parsed with `url.Parse` (a parameter here, since that parser is external)
and dropped on a parse error or when its scheme or host is empty; otherwise
`AddTarget` appends it. -/
def addValidTarget (parse : String → Option GoURL) (p : PortConfig) (t : String) : PortConfig :=
  match parse t with
  | none => p
  | some u => if u.scheme = "" ∨ u.host = "" then p else p.addTarget u

/-- One iteration of the `getPorts` loop for the port key and entry `kv`: a
failed key parse is only logged and the iteration continues with the zero
`PortConfig` (the source does not skip the entry there); a port left with
zero valid targets is dropped. -/
def listGetPortsStep (parse : String → Option GoURL)
    (ports : List (String × PortConfig)) (kv : String × ListPort) :
    List (String × PortConfig) :=
  let port0 := (NewPortShortLabel kv.1).getD PortConfig.zero
  let port1 := { port0 with isRedirect := kv.2.isRedirect }
  let port2 := kv.2.targets.foldl (addValidTarget parse) port1
  if port2.targets = [] then ports
  else mapSet ports kv.1
    { port2 with tlsValidate := kv.2.tlsValidate, funnel := kv.2.funnel }

/-- `list.Client.getPorts`: build the port map of a list entry. -/
def listGetPorts (parse : String → Option GoURL)
    (l : List (String × ListPort)) : List (String × PortConfig) :=
  l.foldl (listGetPortsStep parse) []

/-- `list.Client.newProxyConfig`: materialize the normalized config for one
list entry (hostname and target id are both the entry name) and record the
entry in the provider's bookkeeping map (`addTarget`). -/
def ListClientState.newProxyConfig (parse : String → Option GoURL)
    (c : ListClientState) (name : String) (p : ListEntry) : Config × ListClientState :=
  let pp := if p.proxyProvider = "" then c.defaultProxyProvider else p.proxyProvider
  let pcfg : Config :=
    { targetID := name, hostname := name, targetProvider := c.name,
      proxyProvider := pp, ports := listGetPorts parse p.ports,
      proxyAccessLog := DefaultProxyAccessLog }
  (pcfg, { c with proxies := if name ∈ c.proxies then c.proxies else c.proxies ++ [name] })

/-- `list.Client.AddTarget`: error when the id is not in the current file
view; otherwise materialize its config. -/
def ListClientState.AddTarget (parse : String → Option GoURL)
    (c : ListClientState) (id : String) : Option (Config × ListClientState) :=
  match mapLookup c.configProxies id with
  | none => none
  | some p => some (c.newProxyConfig parse id p)

/-- `list.Client.Close`: send a Stop event for every entry of the
bookkeeping map; nothing else is touched (in particular the file watcher
keeps running). -/
def ListClientState.Close (c : ListClientState) : List TargetEvent :=
  c.proxies.map (fun name => ⟨c.name, name, ActionType.stopProxy⟩)

/-! ## Docker target provider client -/

/-- Docker provider client state (`docker.Client`), restricted to what
`Close` and `DeleteProxy` touch: the bookkeeping map of containers (ids) and
whether the runtime client connection is open. -/
structure DockerClientState where
  name : String
  containers : List String
  clientOpen : Bool
deriving DecidableEq, Repr

/-- `docker.Client.Close`: close the runtime client if present; nothing
else — in particular no Stop events are emitted for active containers. -/
def DockerClientState.Close (c : DockerClientState) : DockerClientState × List TargetEvent :=
  ({ c with clientOpen := false }, [])

/-! ## Port workers (`internal/proxymanager/port.go`) -/

/-- Modelled from the spec: the `consts` package is not under `src/`; the
spec fixes the three injected header names. -/
def HeaderUsername : String := "X-Username"

/-- Modelled from the spec: the display-name header name. -/
def HeaderDisplayName : String := "X-Display-Name"

/-- Modelled from the spec: the profile-picture header name. -/
def HeaderProfilePicURL : String := "X-Profile-Pic-URL"

/-- An inbound HTTP request as the port workers read it: Host header, client
address (the host part, as `net.SplitHostPort` would return it), TLS flag,
headers, and the request context, which may carry a whois identity placed
there by the middleware. -/
structure InRequest where
  host : String
  remoteAddr : String
  tls : Bool
  headers : List (String × String)
  ctxWhois : Option Whois
deriving DecidableEq, Repr

/-- The outbound request the reverse proxy sends upstream. -/
structure OutRequest where
  url : GoURL
  host : String
  headers : List (String × String)
deriving DecidableEq, Repr

/-- `model.WhoisNewContext`: store the looked-up identity in the request
context (the middleware calls this unconditionally). -/
def WhoisNewContext (r : InRequest) (who : Whois) : InRequest :=
  { r with ctxWhois := some who }

/-- Modelled from the spec: `model.WhoisFromContext` is not under `src/`.
Per the spec, an empty identity (the zero `Whois` that the endpoint's whois
returns on failure) counts as no identity being present, so the reverse
proxy injects nothing. -/
def WhoisFromContext (r : InRequest) : Option Whois :=
  match r.ctxWhois with
  | none => none
  | some w => if w = Whois.empty then none else some w

/-- `Proxy.ProviderUserMiddleware`: call the endpoint's whois for the
inbound connection and attach the result to the request context before the
inner handler runs. -/
def ProviderUserMiddleware (whois : InRequest → Whois) (r : InRequest) : InRequest :=
  WhoisNewContext r (whois r)

/-- Go `net/http/httputil` semantics: with a `Rewrite` function the outbound
request starts as a clone of the inbound one with the `X-Forwarded-For`,
`X-Forwarded-Host` and `X-Forwarded-Proto` headers stripped. -/
def initialOutbound (r : InRequest) : OutRequest :=
  { url := ⟨"", "", ""⟩, host := r.host,
    headers := mapErase (mapErase (mapErase r.headers "X-Forwarded-For")
      "X-Forwarded-Host") "X-Forwarded-Proto" }

/-- Go `ProxyRequest.SetURL`: route the outbound request to the target and
rewrite the outbound Host to the target's host. -/
def setURL (target : GoURL) (out : OutRequest) : OutRequest :=
  { out with url := target, host := target.host }

/-- Go `ProxyRequest.SetXForwarded`: extend `X-Forwarded-For` (any prior
outbound value, then the client address), set `X-Forwarded-Host` to the
inbound Host and `X-Forwarded-Proto` from the connection's TLS state. -/
def setXForwarded (rin : InRequest) (out : OutRequest) : OutRequest :=
  let xff := match mapLookup out.headers "X-Forwarded-For" with
    | some prior => prior ++ ", " ++ rin.remoteAddr
    | none => rin.remoteAddr
  let h1 := mapSet out.headers "X-Forwarded-For" xff
  let h2 := mapSet h1 "X-Forwarded-Host" rin.host
  let h3 := mapSet h2 "X-Forwarded-Proto" (if rin.tls then "https" else "http")
  { out with headers := h3 }

/-- The `Rewrite` function `newPortProxy` installs: route to the first
target (`GetFirstTarget`; `none` stands for the nil pointer there), restore
the inbound Host, copy `X-Forwarded-For` from the inbound request, inject
the three identity headers when the inbound context carries an identity,
then append the standard forwarded headers. -/
def portProxyRewrite (pconfig : PortConfig) (rin : InRequest) : Option OutRequest :=
  (pconfig.getFirstTarget).map (fun target =>
    let out0 := setURL target (initialOutbound rin)
    let out1 := { out0 with host := rin.host }
    let h2 := match mapLookup rin.headers "X-Forwarded-For" with
      | some v => mapSet out1.headers "X-Forwarded-For" v
      | none => out1.headers
    let h3 := match WhoisFromContext rin with
      | some user =>
        mapSet (mapSet (mapSet h2 HeaderUsername user.username)
          HeaderDisplayName user.displayName)
          HeaderProfilePicURL user.profilePicURL
      | none => h2
    setXForwarded rin { out1 with headers := h3 })

/-- The reverse-proxy port pipeline as wired in `newPortProxy`: the whois
middleware wraps the reverse proxy, whose `Rewrite` builds the outbound
request. -/
def portProxyOutbound (pconfig : PortConfig) (whois : InRequest → Whois)
    (rin : InRequest) : Option OutRequest :=
  portProxyRewrite pconfig (ProviderUserMiddleware whois rin)

/-- An HTTP response as far as the redirect port worker shapes one. -/
structure RedirectResponse where
  status : Nat
  location : String
deriving DecidableEq, Repr

/-- The handler `newPortRedirect` installs: reply to every request with
`http.Redirect` to the first target's string form, status 301 Moved
Permanently.  The second component lists the upstream connections opened
while serving; the handler body only writes the redirect response, so it is
empty. -/
def portRedirectServe (pconfig : PortConfig) (_r : InRequest) :
    Option (RedirectResponse × List GoURL) :=
  (pconfig.getFirstTarget).map (fun t => (⟨301, t.toString⟩, []))

/-! ## Docker container upstream resolution (`container.go`) -/

/-- The container data `getTargetURL` reads (`docker.container`). -/
structure ContainerM where
  id : String
  ports : List (String × String)
  networkMode : String
  defaultBridgeAddress : String
  defaultTargetHostname : String
  autodetect : Bool
deriving DecidableEq, Repr

/-- Whether the second character list begins the first. -/
def listStarts : List Char → List Char → Bool
  | _, [] => true
  | [], _ :: _ => false
  | a :: s, b :: p => a == b && listStarts s p

/-- Go `strings.HasPrefix`, on the underlying characters. -/
def strStarts (s pre : String) : Bool := listStarts s.toList pre.toList

/-- `container.getPublishedPort`: the published host port mapped to the
given internal port, or `""` when unknown. -/
def ContainerM.getPublishedPort (c : ContainerM) (internalPort : String) : String :=
  (mapLookup c.ports internalPort).getD ""

/-- Environment for autodetection: the probe count (`autoDetectTries`, a
constant not under `src/`) and an oracle for each probe's outcome
(`tryConnectContainer`, also not under `src/`: the first candidate address
accepting a TCP connection on the port, as a URL).  The sleeps between
probes have no observable effect here. -/
structure AutodetectEnv where
  tries : Nat
  probe : Nat → Option GoURL

/-- The autodetect retry loop of `getTargetURL`: probes `i, i+1, …` in
order for the given number of tries, returning the first success. -/
def probeFrom (probe : Nat → Option GoURL) (i : Nat) : Nat → Option GoURL
  | 0 => none
  | n + 1 =>
    match probe i with
    | some u => some u
    | none => probeFrom probe (i + 1) n

/-- `container.getTargetURL`: fail when neither an internal nor a published
port is known; serve `127.0.0.1` when the container is the process's own
host; otherwise try autodetection when enabled, then host networking with a
known default bridge address, then the published port; fail with
`ErrNoPortFoundInContainer` when no published port is known. -/
def ContainerM.getTargetURL (osHostname : Option String) (env : AutodetectEnv)
    (c : ContainerM) (iPortScheme iPortPort : String) : Option GoURL :=
  let internalPort := iPortPort
  let publishedPort := c.getPublishedPort internalPort
  if internalPort = "" ∧ publishedPort = "" then none
  else if (match osHostname with
           | some os => strStarts c.id os
           | none => false) then
    some ⟨"http", "127.0.0.1:" ++ internalPort, ""⟩
  else
    match (if c.autodetect then probeFrom env.probe 0 env.tries else none) with
    | some u => some u
    | none =>
      if c.networkMode = "host" ∧ c.defaultBridgeAddress ≠ "" then
        some ⟨iPortScheme, c.defaultTargetHostname ++ ":" ++ internalPort, ""⟩
      else if publishedPort = "" then none
      else some ⟨iPortScheme, c.defaultTargetHostname ++ ":" ++ publishedPort, ""⟩

/-- The upstream-resolution order exactly as the claim words it: the ordered
alternatives (1) own host, (2) autodetect probes, (3) host networking with a
known default bridge address, (4) published host port, failing with the
no-port-found error only when no alternative applies (in particular when no
published port is known). -/
def claimTargetURL (osHostname : Option String) (env : AutodetectEnv)
    (c : ContainerM) (iPortScheme iPortPort : String) : Option GoURL :=
  let internalPort := iPortPort
  let publishedPort := c.getPublishedPort internalPort
  if (match osHostname with
      | some os => strStarts c.id os
      | none => false) then
    some ⟨"http", "127.0.0.1:" ++ internalPort, ""⟩
  else
    match (if c.autodetect then probeFrom env.probe 0 env.tries else none) with
    | some u => some u
    | none =>
      if c.networkMode = "host" ∧ c.defaultBridgeAddress ≠ "" then
        some ⟨iPortScheme, c.defaultTargetHostname ++ ":" ++ internalPort, ""⟩
      else if publishedPort = "" then none
      else some ⟨iPortScheme, c.defaultTargetHostname ++ ":" ++ publishedPort, ""⟩

/-- The claim's resolution order amended with the code's up-front failure:
when neither an internal nor a published port is known the resolution fails
immediately, before any alternative is tried. -/
def claimTargetURLAmended (osHostname : Option String) (env : AutodetectEnv)
    (c : ContainerM) (iPortScheme iPortPort : String) : Option GoURL :=
  if iPortPort = "" ∧ c.getPublishedPort iPortPort = "" then none
  else claimTargetURL osHostname env c iPortScheme iPortPort

/-! ## Status ordering, for the causal-order claim -/

/-- Position of a status along the documented lifecycle chain Initializing →
Starting → Authenticating → Running → Stopping → Stopped (Error last,
outside the chain); a later-to-earlier step is a regress. -/
def statusRank : ProxyStatus → Nat
  | ProxyStatus.initializing => 0
  | ProxyStatus.starting => 1
  | ProxyStatus.authenticating => 2
  | ProxyStatus.running => 3
  | ProxyStatus.stopping => 4
  | ProxyStatus.stopped => 5
  | ProxyStatus.error => 6

/-- Whether an adjacent pair of a published trace moves backwards along the
lifecycle without being one of the documented Running → Stopping → Stopped
steps. -/
def regressOutsideDocumented (trace : List ProxyEvent) : Bool :=
  (trace.zip trace.tail).any (fun pr =>
    statusRank pr.2.status < statusRank pr.1.status
    && !((pr.1.status == ProxyStatus.running && pr.2.status == ProxyStatus.stopping)
         || (pr.1.status == ProxyStatus.stopping && pr.2.status == ProxyStatus.stopped)))

/-! ## Helper lemmas -/

theorem mapLookup_erase_ne {α : Type} (l : List (String × α)) (k k' : String)
    (h : k' ≠ k) : mapLookup (mapErase l k) k' = mapLookup l k' := by
  induction l with
  | nil => simp [mapErase]
  | cons hd tl ih =>
    by_cases hk : hd.1 = k
    · have hk2 : ¬ hd.1 = k' := by rw [hk]; exact Ne.symm h
      simpa [mapLookup, mapErase, hk, hk2, h, Ne.symm h] using ih
    · by_cases hk' : hd.1 = k'
      · simp [mapLookup, mapErase, hk, hk', h, Ne.symm h]
      · simpa [mapLookup, mapErase, hk, hk', h, Ne.symm h] using ih

/-- One Close call on a proxy whose status is not already Stopping and whose
callback is wired: it publishes Stopping then Stopped and caches Stopped. -/
theorem ProxyM.close_of_ne_stopping (p : ProxyM) (hcb : p.hasOnUpdate = true)
    (hst : p.status ≠ ProxyStatus.stopping) :
    p.Close = ({ p with status := ProxyStatus.stopped },
      [⟨p.config.hostname, ProxyStatus.stopping⟩, ⟨p.config.hostname, ProxyStatus.stopped⟩]) := by
  simp [ProxyM.Close, ProxyM.setStatus, hst, hcb]

/-! ## Claim C3 -/

/-- Claim C3 (confirmed): handling a Restart event is, state for state (live
registry, provider bookkeeping and published status-bus trace alike),
handling a Stop event for the same target followed by handling a Start event
for it, in that order, for every environment, manager state and event. -/
theorem C3_restart_equals_stop_then_start (env : Env) (s : PMState) (ev : TargetEvent) :
    PMState.handleProxyEvent env s { ev with action := ActionType.restartProxy } =
      (PMState.handleProxyEvent env s { ev with action := ActionType.stopProxy }).bind
        (fun s1 => PMState.handleProxyEvent env s1 { ev with action := ActionType.startProxy }) := by
  cases h : PMState.eventStop s ev.id <;>
    simp [PMState.handleProxyEvent, h]

/-! ## Claim C2 -/

/-- A concrete running proxy wired to the bus, used in concrete instances. -/
def proxyRunning : ProxyM :=
  { config := { targetID := "t1", hostname := "web", targetProvider := "files",
                proxyProvider := "ts", ports := [], proxyAccessLog := false },
    status := ProxyStatus.running, hasOnUpdate := true }

/-- Claim C2 counterexample: two sequential Close calls on the same running
proxy publish Stopping, Stopped, Stopping, Stopped — two of each, because
`setStatus` only suppresses a transition to the currently cached status —
refuting "exactly one Stopping followed by exactly one Stopped" at N = 2. -/
theorem C2_counterexample :
    (proxyRunning.closeN 2).2 =
      [⟨"web", ProxyStatus.stopping⟩, ⟨"web", ProxyStatus.stopped⟩,
       ⟨"web", ProxyStatus.stopping⟩, ⟨"web", ProxyStatus.stopped⟩] ∧
    (proxyRunning.closeN 2).2.countP (fun e => decide (e.status = ProxyStatus.stopping)) = 2 := by
  exact ⟨by decide, by decide⟩

/-- Claim C2 amended: every one of the N sequential Close calls publishes one
Stopping followed by one Stopped event (2N events in total, when the proxy
does not already sit in Stopping and its callback is wired), and the
observable status after any N ≥ 1 calls is Stopped. -/
theorem C2_amended_each_close_publishes_pair (p : ProxyM) (n : Nat)
    (hcb : p.hasOnUpdate = true) (hst : p.status ≠ ProxyStatus.stopping) (hn : 1 ≤ n) :
    (p.closeN n).1.status = ProxyStatus.stopped ∧
    (p.closeN n).2 =
      (List.replicate n
        [ProxyEvent.mk p.config.hostname ProxyStatus.stopping,
         ProxyEvent.mk p.config.hostname ProxyStatus.stopped]).flatten := by
  induction n generalizing p with
  | zero => exact absurd hn (by decide)
  | succ m ih =>
    have hclose := p.close_of_ne_stopping hcb hst
    have hstep : p.closeN (m + 1) =
        (((p.Close).1.closeN m).1, (p.Close).2 ++ ((p.Close).1.closeN m).2) := rfl
    cases m with
    | zero =>
      rw [hstep, hclose]
      exact ⟨rfl, by simp [ProxyM.closeN]⟩
    | succ k =>
      have hq2 : ({ p with status := ProxyStatus.stopped } : ProxyM).status ≠ ProxyStatus.stopping :=
        fun hc => ProxyStatus.noConfusion hc
      have ihq := ih ({ p with status := ProxyStatus.stopped }) hcb hq2 (by omega)
      constructor
      · rw [hstep, hclose]
        exact ihq.1
      · rw [hstep, hclose, ihq.2]
        simp [List.replicate_succ]

/-- Closed instance of the amended C2 statement at a concrete proxy, N = 2. -/
theorem C2_amended_witness :
    (proxyRunning.closeN 2).1.status = ProxyStatus.stopped ∧
    (proxyRunning.closeN 2).2 =
      (List.replicate 2
        [ProxyEvent.mk "web" ProxyStatus.stopping,
         ProxyEvent.mk "web" ProxyStatus.stopped]).flatten :=
  C2_amended_each_close_publishes_pair proxyRunning 2 rfl (by decide) (by decide)

/-! ## Claim C9 -/

/-- Claim C9 counterexample: the bus trace of two sequential Close calls
contains the adjacent pair Stopped → Stopping, a regress along the lifecycle
that is not one of the documented Running → Stopping → Stopped steps, so an
observer of the status bus does see a regress outside that path. -/
theorem C9_counterexample :
    regressOutsideDocumented (proxyRunning.closeN 2).2 = true := by
  decide

/-- Events published by a proxy whose callback is not wired: none. -/
theorem setStatusSeq_no_callback (p : ProxyM) (l : List ProxyStatus)
    (hcb : p.hasOnUpdate = false) : (p.setStatusSeq l).2 = [] := by
  induction l generalizing p with
  | nil => rfl
  | cons s rest ih =>
    by_cases h : p.status = s
    · simpa [ProxyM.setStatusSeq, ProxyM.setStatus, h] using ih p hcb
    · simpa [ProxyM.setStatusSeq, ProxyM.setStatus, h, hcb] using
        ih { p with status := s } hcb

/-- Published traces never repeat a status in adjacent positions, and a
nonempty trace starts with a status different from the cached one. -/
theorem setStatusSeq_chain_aux (l : List ProxyStatus) (p : ProxyM)
    (hcb : p.hasOnUpdate = true) :
    List.Chain' (fun a b => a.status ≠ b.status) (p.setStatusSeq l).2 ∧
    (∀ e, ((p.setStatusSeq l).2).head? = some e → e.status ≠ p.status) := by
  induction l generalizing p with
  | nil => simp [ProxyM.setStatusSeq]
  | cons s rest ih =>
    have hstep : (p.setStatusSeq (s :: rest)).2
        = (p.setStatus s).2 ++ (((p.setStatus s).1).setStatusSeq rest).2 := rfl
    by_cases h : p.status = s
    · have hset : p.setStatus s = (p, []) := by simp [ProxyM.setStatus, h]
      rw [hstep, hset]
      simpa using ih p hcb
    · have hset : p.setStatus s = ({ p with status := s }, [⟨p.config.hostname, s⟩]) := by
        simp [ProxyM.setStatus, h, hcb]
      have ihq := ih { p with status := s } hcb
      rw [hstep, hset]
      constructor
      · simp only [List.singleton_append]
        refine List.chain'_cons'.2 ⟨?_, ihq.1⟩
        intro b hb
        rw [Option.mem_def] at hb
        exact Ne.symm (ihq.2 b hb)
      · intro e he
        simp only [List.singleton_append, List.head?_cons, Option.some_inj] at he
        rw [← he]
        exact fun hcontra => h hcontra.symm

/-- Claim C9 amended: `setStatus` deduplicates only consecutive repeats — in
any sequential run of status changes the published trace never shows the
same status twice in a row — but an observer can see regresses outside the
documented Running → Stopping → Stopped path (for example Stopping directly
after Stopped when Close runs again). -/
theorem C9_amended_no_adjacent_duplicates (p : ProxyM) (l : List ProxyStatus) :
    List.Chain' (fun a b => a.status ≠ b.status) (p.setStatusSeq l).2 := by
  cases hcb : p.hasOnUpdate with
  | false => simp [setStatusSeq_no_callback p l hcb]
  | true => exact (setStatusSeq_chain_aux l p hcb).1

/-! ## Claim C5 -/

/-- A concrete docker provider client with one active container. -/
def dockerClientEx : DockerClientState :=
  { name := "docker1", containers := ["c1"], clientOpen := true }

/-- Claim C5 counterexample: the container-runtime provider's Close emits no
Stop event although container "c1" is still active, refuting "for every
target provider … close() emits a Stop event for every still-active id". -/
theorem C5_counterexample :
    "c1" ∈ dockerClientEx.containers ∧ (dockerClientEx.Close).2 = [] := by
  exact ⟨by decide, rfl⟩

/-- Claim C5 amended: only the list-file provider's Close emits Stop events —
exactly one per still-active id, in bookkeeping order — while the
container-runtime provider's Close merely closes the runtime client and
emits nothing (and neither Close touches the provider's remaining state). -/
theorem C5_amended_close_behavior (lc : ListClientState) (dc : DockerClientState) :
    (lc.Close).map (fun e => e.id) = lc.proxies ∧
    (lc.Close).all (fun e => decide (e.action = ActionType.stopProxy)) = true ∧
    (dc.Close).2 = [] ∧
    (dc.Close).1 = { dc with clientOpen := false } := by
  refine ⟨?_, ?_, rfl, rfl⟩
  · simp [ListClientState.Close, Function.comp_def]
  · simp [ListClientState.Close, List.all_eq_true]

/-! ## Claim C8 -/

/-- Claim C8 (confirmed): a redirect port worker answers every request with
status 301 and Location equal to the port's first configured target, and
serving opens no upstream connection. -/
theorem C8_redirect_semantics (pconfig : PortConfig) (t : GoURL) (r : InRequest)
    (h : pconfig.getFirstTarget = some t) :
    portRedirectServe pconfig r = some (⟨301, t.toString⟩, []) := by
  simp [portRedirectServe, h]

/-- A concrete redirect port configuration. -/
def pcRedirect : PortConfig :=
  { proxyPort := 80, proxyProtocol := "http",
    targets := [⟨"https", "example.com", "/"⟩],
    isRedirect := true, tlsValidate := true, funnel := false }

/-- A concrete inbound request for the port-worker instances. -/
def reqPlain : InRequest :=
  { host := "foo", remoteAddr := "100.64.0.7", tls := false,
    headers := [], ctxWhois := none }

/-- Closed instance of the redirect behaviour at a concrete port and
request. -/
theorem C8_redirect_witness :
    portRedirectServe pcRedirect reqPlain =
      some (⟨301, "https://example.com/"⟩, []) :=
  C8_redirect_semantics pcRedirect ⟨"https", "example.com", "/"⟩ reqPlain rfl

/-! ## Claim C10 -/

/-- Claim C10 (confirmed): when a Stop event names a target id with no live
proxy, or when the owning target provider's DeleteProxy errors (the id is
unknown to its bookkeeping), the Stop handler returns the manager state
completely unchanged: same registry entries, same provider bookkeeping, same
bus trace — no proxy is closed and no status changes. -/
theorem C10_eventStop_atomic_on_failure (s : PMState) (id : String)
    (h : s.getProxyByTargetID id = none ∨
      ∃ p bk, s.getProxyByTargetID id = some p ∧
        mapLookup s.tpTargets p.config.targetProvider = some bk ∧ id ∉ bk) :
    s.eventStop id = some s := by
  rcases h with h | ⟨p, bk, hp, hbk, hid⟩
  · simp [PMState.eventStop, h]
  · simp [PMState.eventStop, hp, hbk, hid]

/-- A concrete manager state where the proxy for target "t1" is live but its
provider's bookkeeping no longer knows "t1" (so DeleteProxy errors). -/
def s10 : PMState :=
  { proxies := [("web", proxyRunning)], tpTargets := [("files", [])], bus := [] }

/-- Closed instance: a Stop event for "t1" whose provider delete fails
leaves the state untouched. -/
theorem C10_witness : s10.eventStop "t1" = some s10 :=
  C10_eventStop_atomic_on_failure s10 "t1"
    (Or.inr ⟨proxyRunning, [], by decide, by decide, by decide⟩)

/-! ## Claim C1 -/

/-- `removeProxy` preserves hostname uniqueness of the registry. -/
theorem removeProxy_nodup (s : PMState) (hostname : String)
    (h : (mapKeys s.proxies).Nodup) :
    (mapKeys (s.removeProxy hostname).proxies).Nodup := by
  unfold PMState.removeProxy
  cases hl : mapLookup s.proxies hostname with
  | none => simpa using h
  | some p => simpa using mapKeys_nodup_erase _ _ h

/-- `eventStart` preserves hostname uniqueness of the registry. -/
theorem eventStart_nodup (env : Env) (s : PMState) (pn id : String)
    (h : (mapKeys s.proxies).Nodup) :
    (mapKeys (PMState.eventStart env s pn id).proxies).Nodup := by
  unfold PMState.eventStart PMState.newAndStartProxy
  cases hat : (env.behavior pn).addTarget id with
  | none => simpa using h
  | some pcfg =>
    by_cases h1 : env.ppOk pcfg
    · by_cases h2 : env.newProxyOk pcfg
      · simpa [h1, h2] using mapKeys_nodup_set s.proxies pcfg.hostname _ h
      · simpa [h1, h2] using h
    · simpa [h1] using h

/-- `eventStop` preserves hostname uniqueness of the registry. -/
theorem eventStop_nodup (s : PMState) (id : String) (s1 : PMState)
    (h : (mapKeys s.proxies).Nodup) (he : s.eventStop id = some s1) :
    (mapKeys s1.proxies).Nodup := by
  unfold PMState.eventStop at he
  cases hp : s.getProxyByTargetID id with
  | none =>
    simp only [hp, Option.some_inj] at he
    rw [← he]
    exact h
  | some p =>
    simp only [hp] at he
    cases hbk : mapLookup s.tpTargets p.config.targetProvider with
    | none => simp [hbk] at he
    | some bk =>
      simp only [hbk] at he
      by_cases hid : id ∈ bk
      · rw [if_pos hid] at he
        simp only [Option.some_inj] at he
        rw [← he]
        exact removeProxy_nodup _ _ h
      · rw [if_neg hid] at he
        simp only [Option.some_inj] at he
        rw [← he]
        exact h

/-- Claim C1 amended: hostname uniqueness does hold (handling any event
preserves it, so no two registry entries ever share a key), but a second
proxy is registered under an already-registered hostname by any successfully
handled Start event whose materialized config reuses that hostname — the
registration is an unconditional map assignment, so replacement is not
restricted to Restart events. -/
theorem C1_amended_registry (env : Env) (s : PMState) (ev : TargetEvent) (s1 : PMState)
    (h : (mapKeys s.proxies).Nodup) (he : PMState.handleProxyEvent env s ev = some s1) :
    (mapKeys s1.proxies).Nodup ∧
    (∀ pcfg, ev.action = ActionType.startProxy →
      (env.behavior ev.provider).addTarget ev.id = some pcfg →
      env.ppOk pcfg = true → env.newProxyOk pcfg = true →
      mapLookup s1.proxies pcfg.hostname =
        some { config := pcfg, status := ProxyStatus.initializing, hasOnUpdate := true }) := by
  constructor
  · unfold PMState.handleProxyEvent at he
    cases hact : ev.action with
    | startProxy =>
      rw [hact] at he
      simp only [Option.some_inj] at he
      rw [← he]
      exact eventStart_nodup env s ev.provider ev.id h
    | stopProxy =>
      rw [hact] at he
      exact eventStop_nodup s ev.id s1 h he
    | restartProxy =>
      rw [hact] at he
      cases hstop : s.eventStop ev.id with
      | none => simp [hstop] at he
      | some s2 =>
        rw [hstop] at he
        simp only [Option.map_some', Option.some_inj] at he
        rw [← he]
        exact eventStart_nodup env s2 ev.provider ev.id (eventStop_nodup s ev.id s2 h hstop)
    | startPort => rw [hact] at he; simp only [Option.some_inj] at he; rw [← he]; exact h
    | stopPort => rw [hact] at he; simp only [Option.some_inj] at he; rw [← he]; exact h
    | restartPort => rw [hact] at he; simp only [Option.some_inj] at he; rw [← he]; exact h
  · intro pcfg hact hat h1 h2
    unfold PMState.handleProxyEvent at he
    rw [hact] at he
    simp only [Option.some_inj] at he
    rw [← he]
    unfold PMState.eventStart PMState.newAndStartProxy
    rw [hat]
    simp only [h1, h2, if_pos]
    exact mapLookup_set_self _ _ _

/-- The config the colliding Start event materializes: same hostname "h" as
the already-registered proxy, different target id. -/
def cfgB : Config :=
  { targetID := "b", hostname := "h", targetProvider := "files",
    proxyProvider := "ts", ports := [], proxyAccessLog := false }

/-- The proxy registered first under hostname "h", for target "a". -/
def proxyA : ProxyM :=
  { config := { targetID := "a", hostname := "h", targetProvider := "files",
                proxyProvider := "ts", ports := [], proxyAccessLog := false },
    status := ProxyStatus.running, hasOnUpdate := true }

/-- Environment whose provider materializes `cfgB` for id "b". -/
def envC1 : Env :=
  { behavior := fun _ => ⟨fun id => if id = "b" then some cfgB else none⟩,
    ppOk := fun _ => true, newProxyOk := fun _ => true }

/-- Manager state with `proxyA` live under hostname "h". -/
def sC1 : PMState :=
  { proxies := [("h", proxyA)], tpTargets := [("files", ["a"])], bus := [] }

/-- Claim C1 counterexample: a plain Start event (not a Restart) for target
"b", whose config reuses the registered hostname "h", replaces the live
proxy for target "a" under that hostname — refuting "replaced … only as the
effect of an explicit Restart event, never … a plain Start event". -/
theorem C1_counterexample :
    PMState.handleProxyEvent envC1 sC1 ⟨"files", "b", ActionType.startProxy⟩ =
      some { proxies := [("h", { config := cfgB, status := ProxyStatus.initializing,
                                 hasOnUpdate := true })],
             tpTargets := [("files", ["a", "b"])],
             bus := [⟨"h", ProxyStatus.initializing⟩] } ∧
    mapLookup sC1.proxies "h" = some proxyA ∧
    proxyA.config.targetID ≠ cfgB.targetID := by
  exact ⟨by decide, by decide, by decide⟩

/-- Closed instance of the amended C1 statement at the counterexample
input. -/
theorem C1_amended_witness :
    (mapKeys ((PMState.eventStart envC1 sC1 "files" "b")).proxies).Nodup ∧
    mapLookup (PMState.eventStart envC1 sC1 "files" "b").proxies "h" =
      some { config := cfgB, status := ProxyStatus.initializing, hasOnUpdate := true } := by
  have h := C1_amended_registry envC1 sC1 ⟨"files", "b", ActionType.startProxy⟩
    (PMState.eventStart envC1 sC1 "files" "b") (by decide) rfl
  exact ⟨h.1, h.2 cfgB rfl (by decide) rfl rfl⟩

/-! ## Claim C4 -/

/-- A target string is invalid for the list provider when `url.Parse` fails
or the parsed URL misses its scheme or host. -/
def invalidTarget (parse : String → Option GoURL) (t : String) : Bool :=
  match parse t with
  | none => true
  | some u => u.scheme == "" || u.host == ""

/-- The port-key parse (successful or not) contributes no targets. -/
theorem shortLabel_targets_empty (k : String) :
    ((NewPortShortLabel k).getD PortConfig.zero).targets = [] := by
  unfold NewPortShortLabel
  cases hs : splitChar (Char.ofNat 0x2f) k.toList with
  | nil => simp [PortConfig.zero]
  | cons a t =>
    cases t with
    | nil => simp [PortConfig.zero]
    | cons b t2 =>
      cases t2 with
      | nil =>
        cases hn : digitsVal a with
        | none => simp [hn, PortConfig.zero]
        | some n => simp [hn]
      | cons c t3 => simp [PortConfig.zero]

/-- Folding only invalid targets adds nothing. -/
theorem foldl_addValidTarget_invalid (parse : String → Option GoURL)
    (ts : List String) (p : PortConfig)
    (hinv : ∀ t ∈ ts, invalidTarget parse t = true) :
    ts.foldl (addValidTarget parse) p = p := by
  induction ts generalizing p with
  | nil => rfl
  | cons t rest ih =>
    have ht := hinv t (List.mem_cons_self t rest)
    have hstep : addValidTarget parse p t = p := by
      unfold addValidTarget
      cases hp : parse t with
      | none => rfl
      | some u =>
        simp only [invalidTarget, hp] at ht
        have ht2 : u.scheme = "" ∨ u.host = "" := by
          simpa using ht
        exact if_pos ht2
    rw [List.foldl_cons, hstep]
    exact ih p (fun x hx => hinv x (List.mem_cons_of_mem _ hx))

/-- A list entry all of whose target URLs are invalid keeps no port. -/
theorem listGetPorts_all_invalid (parse : String → Option GoURL)
    (l : List (String × ListPort))
    (hinv : ∀ kv ∈ l, ∀ t ∈ kv.2.targets, invalidTarget parse t = true) :
    listGetPorts parse l = [] := by
  suffices haux : ∀ acc, l.foldl (listGetPortsStep parse) acc = acc from haux []
  induction l with
  | nil => intro acc; rfl
  | cons kv rest ih =>
    intro acc
    have hstep : listGetPortsStep parse acc kv = acc := by
      unfold listGetPortsStep
      have h2 : (kv.2.targets.foldl (addValidTarget parse)
          { (NewPortShortLabel kv.1).getD PortConfig.zero with
            isRedirect := kv.2.isRedirect }).targets = [] := by
        rw [foldl_addValidTarget_invalid parse kv.2.targets _
          (fun t ht => hinv kv (List.mem_cons_self kv rest) t ht)]
        exact shortLabel_targets_empty kv.1
      simp only [h2, if_pos]
    rw [List.foldl_cons, hstep]
    exact ih (fun x hx t ht => hinv x (List.mem_cons_of_mem _ hx) t ht) acc

/-- The list provider's `AddTarget`, as the proxy manager calls it. -/
def listBehavior (parse : String → Option GoURL) (c : ListClientState) : TPBehavior :=
  ⟨fun i => (c.AddTarget parse i).map (fun r => r.1)⟩

/-- Claim C4 amended: for a list entry all of whose target URLs are invalid,
every port is dropped (the materialized config has an empty port map) — but
handling the Start event still creates and registers a proxy under the
entry's hostname (whose asynchronous start will park it in Error, the
endpoint never started); the registry does contain the hostname. -/
theorem C4_amended_ports_dropped (parse : String → Option GoURL)
    (c : ListClientState) (pn id : String) (entry : ListEntry) (env : Env) (s : PMState)
    (hentry : mapLookup c.configProxies id = some entry)
    (hinv : ∀ kv ∈ entry.ports, ∀ t ∈ kv.2.targets, invalidTarget parse t = true)
    (hb : env.behavior pn = listBehavior parse c)
    (hpp : env.ppOk (c.newProxyConfig parse id entry).1 = true)
    (hnp : env.newProxyOk (c.newProxyConfig parse id entry).1 = true) :
    listGetPorts parse entry.ports = [] ∧
    ((c.newProxyConfig parse id entry).1).ports = [] ∧
    mapLookup (PMState.eventStart env s pn id).proxies id =
      some { config := (c.newProxyConfig parse id entry).1,
             status := ProxyStatus.initializing, hasOnUpdate := true } := by
  have h1 : listGetPorts parse entry.ports = [] :=
    listGetPorts_all_invalid parse entry.ports hinv
  refine ⟨h1, h1, ?_⟩
  unfold PMState.eventStart
  rw [hb]
  have hat : (listBehavior parse c).addTarget id
      = some (c.newProxyConfig parse id entry).1 := by
    simp [listBehavior, ListClientState.AddTarget, hentry]
  rw [hat]
  unfold PMState.newAndStartProxy
  simp only [hpp, hnp, if_true]
  exact mapLookup_set_self _ _ _

/-- A concrete list port whose single target parses without scheme or host
(Go `url.Parse("nohost")` succeeds with empty scheme and host). -/
def listPort80 : ListPort :=
  { targets := ["nohost"], funnel := false, isRedirect := false, tlsValidate := true }

/-- A concrete list entry with one port and only the invalid target. -/
def entryFoo : ListEntry := { ports := [("80/http", listPort80)], proxyProvider := "" }

/-- The concrete parser outcome for the strings of `entryFoo`. -/
def parseC4 : String → Option GoURL :=
  fun t => if t = "nohost" then some ⟨"", "", "nohost"⟩ else none

/-- The list client whose file view holds `entryFoo` under name "foo". -/
def listC4 : ListClientState :=
  { name := "files", configProxies := [("foo", entryFoo)], proxies := [],
    defaultProxyProvider := "ts", watching := true }

/-- Environment wiring `listC4` as the provider named "files". -/
def envC4 : Env :=
  { behavior := fun _ => listBehavior parseC4 listC4,
    ppOk := fun _ => true, newProxyOk := fun _ => true }

/-- The empty manager state. -/
def pmEmpty : PMState := { proxies := [], tpTargets := [], bus := [] }

/-- The config the list provider materializes for "foo": every port dropped. -/
def cfgFoo : Config :=
  { targetID := "foo", hostname := "foo", targetProvider := "files",
    proxyProvider := "ts", ports := [], proxyAccessLog := false }

/-- Claim C4 counterexample: the entry's only port has only invalid targets,
so its ports are all dropped — yet after the Start event is handled the
registry does contain a proxy under hostname "foo", refuting "the registry
contains no proxy under that entry's hostname". -/
theorem C4_counterexample :
    listGetPorts parseC4 entryFoo.ports = [] ∧
    (PMState.handleProxyEvent envC4 pmEmpty ⟨"files", "foo", ActionType.startProxy⟩).map
        (fun st => mapLookup st.proxies "foo") =
      some (some { config := cfgFoo, status := ProxyStatus.initializing,
                   hasOnUpdate := true }) := by
  exact ⟨by decide, by decide⟩

/-- Closed instance of the amended C4 statement at the concrete entry. -/
theorem C4_amended_witness :
    listGetPorts parseC4 entryFoo.ports = [] ∧
    ((listC4.newProxyConfig parseC4 "foo" entryFoo).1).ports = [] ∧
    mapLookup (PMState.eventStart envC4 pmEmpty "files" "foo").proxies "foo" =
      some { config := (listC4.newProxyConfig parseC4 "foo" entryFoo).1,
             status := ProxyStatus.initializing, hasOnUpdate := true } :=
  C4_amended_ports_dropped parseC4 listC4 "files" "foo" entryFoo envC4 pmEmpty
    (by decide) (by decide) rfl (by decide) (by decide)

/-! ## Claim C7 -/

/-- Claim C7 amended: the container upstream-URL resolution equals the
claim's ordered alternatives (1) own host, (2) autodetect probes, (3) host
networking with a known default bridge address, (4) published host port,
provided the order is prefixed with the code's up-front failure when neither
an internal nor a published port is known. -/
theorem C7_amended_resolution_order (osHostname : Option String) (env : AutodetectEnv)
    (c : ContainerM) (scheme pport : String) :
    ContainerM.getTargetURL osHostname env c scheme pport =
      claimTargetURLAmended osHostname env c scheme pport := by
  unfold ContainerM.getTargetURL claimTargetURLAmended claimTargetURL
  by_cases h : pport = "" ∧ c.getPublishedPort pport = ""
  · simp [h]
  · simp [h]

/-- A container with no known ports that is the process's own host. -/
def contC7 : ContainerM :=
  { id := "abc123", ports := [], networkMode := "default",
    defaultBridgeAddress := "", defaultTargetHostname := "172.31.0.1",
    autodetect := false }

/-- Probes that never find an address (autodetect is off anyway). -/
def adEnvC7 : AutodetectEnv := { tries := 3, probe := fun _ => none }

/-- Claim C7 counterexample: with neither an internal nor a published port
known the code fails immediately with the no-port-found error although
alternative (1) applies (the container is the process's own host) — under
the claim's literal order, which fails only when no alternative applies,
resolution would instead produce the localhost URL. -/
theorem C7_counterexample :
    ContainerM.getTargetURL (some "abc") adEnvC7 contC7 "http" "" = none ∧
    claimTargetURL (some "abc") adEnvC7 contC7 "http" "" =
      some ⟨"http", "127.0.0.1:", ""⟩ := by
  exact ⟨by decide, by decide⟩

/-! ## Claim C6 -/

/-- Looking a header up after `SetXForwarded` is transparent for names other
than the three forwarded ones. -/
theorem lookup_setXForwarded_ne (rin : InRequest) (out : OutRequest) (n : String)
    (h1 : n ≠ "X-Forwarded-For") (h2 : n ≠ "X-Forwarded-Host")
    (h3 : n ≠ "X-Forwarded-Proto") :
    mapLookup (setXForwarded rin out).headers n = mapLookup out.headers n := by
  simp only [setXForwarded]
  rw [mapLookup_set_ne _ _ _ _ h3, mapLookup_set_ne _ _ _ _ h2,
    mapLookup_set_ne _ _ _ _ h1]

/-- Looking a header up on the initial outbound clone is transparent for
names other than the three stripped forwarded ones. -/
theorem lookup_initialOutbound_ne (rin : InRequest) (n : String)
    (h1 : n ≠ "X-Forwarded-For") (h2 : n ≠ "X-Forwarded-Host")
    (h3 : n ≠ "X-Forwarded-Proto") :
    mapLookup (initialOutbound rin).headers n = mapLookup rin.headers n := by
  simp only [initialOutbound]
  rw [mapLookup_erase_ne _ _ _ h3, mapLookup_erase_ne _ _ _ h2,
    mapLookup_erase_ne _ _ _ h1]

/-- Claim C6 amended: when whois yields a non-empty identity, the outbound
request carries the three fixed headers with exactly the looked-up values;
when whois yields the empty identity the rewrite injects none of the
three — each of the three headers is present on the outbound request exactly
as (and only if) the inbound request already carried it. -/
theorem C6_amended_identity_headers (pconfig : PortConfig) (whois : InRequest → Whois)
    (rin : InRequest) (out : OutRequest)
    (hout : portProxyOutbound pconfig whois rin = some out) :
    (whois rin ≠ Whois.empty →
      mapLookup out.headers HeaderUsername = some (whois rin).username ∧
      mapLookup out.headers HeaderDisplayName = some (whois rin).displayName ∧
      mapLookup out.headers HeaderProfilePicURL = some (whois rin).profilePicURL) ∧
    (whois rin = Whois.empty →
      mapLookup out.headers HeaderUsername = mapLookup rin.headers HeaderUsername ∧
      mapLookup out.headers HeaderDisplayName = mapLookup rin.headers HeaderDisplayName ∧
      mapLookup out.headers HeaderProfilePicURL = mapLookup rin.headers HeaderProfilePicURL) := by
  unfold portProxyOutbound portProxyRewrite ProviderUserMiddleware WhoisNewContext at hout
  cases ht : pconfig.getFirstTarget with
  | none => rw [ht] at hout; cases hout
  | some target =>
    rw [ht] at hout
    simp only [Option.map_some', Option.some_inj] at hout
    rw [← hout]
    constructor
    · intro hw
      have hwc : WhoisFromContext { rin with ctxWhois := some (whois rin) }
          = some (whois rin) := by
        simp [WhoisFromContext, hw]
      rw [hwc]
      refine ⟨?_, ?_, ?_⟩
      · rw [lookup_setXForwarded_ne _ _ _ (by decide) (by decide) (by decide),
          mapLookup_set_ne _ _ _ _ (by decide), mapLookup_set_ne _ _ _ _ (by decide),
          mapLookup_set_self]
      · rw [lookup_setXForwarded_ne _ _ _ (by decide) (by decide) (by decide),
          mapLookup_set_ne _ _ _ _ (by decide), mapLookup_set_self]
      · rw [lookup_setXForwarded_ne _ _ _ (by decide) (by decide) (by decide),
          mapLookup_set_self]
    · intro hw
      have hwc : WhoisFromContext { rin with ctxWhois := some (whois rin) } = none := by
        simp [WhoisFromContext, hw]
      rw [hwc]
      have hbase : ∀ n, n ≠ "X-Forwarded-For" → n ≠ "X-Forwarded-Host" →
          n ≠ "X-Forwarded-Proto" →
          mapLookup (match mapLookup rin.headers "X-Forwarded-For" with
            | some v => mapSet { setURL target (initialOutbound rin) with
                host := rin.host }.headers "X-Forwarded-For" v
            | none => { setURL target (initialOutbound rin) with
                host := rin.host }.headers) n = mapLookup rin.headers n := by
        intro n hn1 hn2 hn3
        cases hxff : mapLookup rin.headers "X-Forwarded-For" with
        | none =>
          simpa [setURL] using lookup_initialOutbound_ne rin n hn1 hn2 hn3
        | some v =>
          rw [mapLookup_set_ne _ _ _ _ hn1]
          simpa [setURL] using lookup_initialOutbound_ne rin n hn1 hn2 hn3
      refine ⟨?_, ?_, ?_⟩
      · rw [lookup_setXForwarded_ne _ _ _ (by decide) (by decide) (by decide)]
        exact hbase _ (by decide) (by decide) (by decide)
      · rw [lookup_setXForwarded_ne _ _ _ (by decide) (by decide) (by decide)]
        exact hbase _ (by decide) (by decide) (by decide)
      · rw [lookup_setXForwarded_ne _ _ _ (by decide) (by decide) (by decide)]
        exact hbase _ (by decide) (by decide) (by decide)

/-- A constantly-empty whois: the endpoint lookup fails for every request. -/
def whoisEmptyF : InRequest → Whois := fun _ => Whois.empty

/-- A reverse-proxy port configuration with one upstream target. -/
def pcProxy : PortConfig :=
  { proxyPort := 443, proxyProtocol := "https",
    targets := [⟨"http", "10.0.0.5:8080", ""⟩],
    isRedirect := false, tlsValidate := true, funnel := false }

/-- An inbound request whose client spoofed the username header. -/
def reqSpoof : InRequest :=
  { host := "web.example", remoteAddr := "100.64.0.7", tls := true,
    headers := [("X-Username", "spoof")], ctxWhois := none }

/-- Claim C6 counterexample: whois returns the empty identity, yet the
outbound request does carry the username header — the spoofed inbound header
that the rewrite copies through rather than strips — refuting "none of the
three headers are present on the outbound request". -/
theorem C6_counterexample :
    whoisEmptyF reqSpoof = Whois.empty ∧
    (portProxyOutbound pcProxy whoisEmptyF reqSpoof).map
        (fun o => mapLookup o.headers HeaderUsername) = some (some "spoof") := by
  exact ⟨rfl, by decide⟩

/-- A whois returning a fixed non-empty identity. -/
def whoisUF : InRequest → Whois :=
  fun _ => ⟨"u", "U Name", "uid1", "https://pic.example/u.png"⟩

/-- The concrete outbound request the pipeline produces for `reqSpoof` under
the non-empty identity. -/
def outC6 : OutRequest :=
  (portProxyOutbound pcProxy whoisUF reqSpoof).getD ⟨⟨"", "", ""⟩, "", []⟩

/-- Closed instance of the amended C6 statement: the non-empty identity is
injected with exactly the looked-up values (overriding the spoof). -/
theorem C6_amended_witness :
    whoisUF reqSpoof ≠ Whois.empty ∧
    mapLookup outC6.headers HeaderUsername = some "u" ∧
    mapLookup outC6.headers HeaderDisplayName = some "U Name" ∧
    mapLookup outC6.headers HeaderProfilePicURL = some "https://pic.example/u.png" := by
  have hout : portProxyOutbound pcProxy whoisUF reqSpoof = some outC6 := by decide
  have h := (C6_amended_identity_headers pcProxy whoisUF reqSpoof outC6 hout).1 (by decide)
  exact ⟨by decide, h.1, h.2.1, h.2.2⟩

end Tsdproxy
